import Mathlib

/-!
Shallow embedding of the connection pipeline and routing engine of the
rust_simple_server repository (the `core/` + `support/` generation:
`src/core/router.rs`, `src/core/conn.rs`, `src/support/trie.rs`,
`src/support/common.rs`).

Modelling conventions:
* Rust `HashMap<K, V>` values are modelled as association lists with unique
  keys; `HashMap::get` is first-match lookup, `entry(..).or_insert(..)` keeps
  the first binding, `insert` replaces in place.  Where the code iterates a
  hash map (whose order is unspecified), the iteration order is either an
  explicit argument quantified over permutations of the entries, or — where
  the order is irrelevant to the claim — the list's own order.
* Handler function pointers (`Callback`) are opaque; we model them as `Nat`
  identifiers compared by identity, which matches how the claims use them.
* Compiled regexes are opaque external values; a `RegexEngine` supplies the
  compile-success predicate and the match semantics, and routes store the
  textual pattern exactly as the Rust structs store the pattern source.
* Functions that can `panic!` return `Option`, with `none` marking the panic.
* The channel/worker-pool plumbing of `conn.rs` is sequentialized; the only
  nondeterminism — whether a bounded `recv_timeout` succeeds — is an explicit
  oracle argument.
* `core/http.rs` (the `Request`/`Response` structs) is not part of the
  sources; those parts are spec-modelled and marked as such.
-/

namespace RustServer

/-! ## Association-list model of HashMap -/

variable {K : Type} {A : Type}

/-- First-match lookup, the model of `HashMap::get`. -/
def assocGet [DecidableEq K] : List (K × A) → K → Option A
  | [], _ => none
  | (k1, v1) :: rest, k => if k1 = k then some v1 else assocGet rest k

/-- Model of `HashMap::entry(k).or_insert(v)`: keep an existing binding,
append the new one otherwise. -/
def assocOrInsert [DecidableEq K] : List (K × A) → K → A → List (K × A)
  | [], k, v => [(k, v)]
  | (k1, v1) :: rest, k, v =>
    if k1 = k then (k1, v1) :: rest else (k1, v1) :: assocOrInsert rest k v

/-- Model of `HashMap::insert(k, v)`: replace in place, else append. -/
def assocInsert [DecidableEq K] : List (K × A) → K → A → List (K × A)
  | [], k, v => [(k, v)]
  | (k1, v1) :: rest, k, v =>
    if k1 = k then (k, v) :: rest else (k1, v1) :: assocInsert rest k v

/-- Model of `map.get_mut(k)` followed by an in-place update of the value. -/
def assocUpd [DecidableEq K] : List (K × A) → K → A → List (K × A)
  | [], _, _ => []
  | (k1, v1) :: rest, k, v =>
    if k1 = k then (k, v) :: rest else (k1, v1) :: assocUpd rest k v

/-! ## String helpers (structural, over the character list) -/

/-- Rust `char`-separated `str::split`: keeps empty pieces, exactly like
`"a//b".split('/')`. -/
def splitCharAux (c : Char) : List Char → List Char → List (List Char)
  | [], cur => [cur.reverse]
  | x :: xs, cur =>
    if x = c then cur.reverse :: splitCharAux c xs []
    else splitCharAux c xs (x :: cur)

def splitChar (c : Char) (l : List Char) : List (List Char) :=
  splitCharAux c l []

/-- Split on a character predicate, keeping empty pieces. -/
def splitPredAux (p : Char → Bool) : List Char → List Char → List (List Char)
  | [], cur => [cur.reverse]
  | x :: xs, cur =>
    if p x then cur.reverse :: splitPredAux p xs []
    else splitPredAux p xs (x :: cur)

/-- Rust `str::split_whitespace`: split on whitespace and drop empty pieces. -/
def splitWhitespaceStr (s : String) : List String :=
  ((splitPredAux Char.isWhitespace s.toList []).filter (· ≠ [])).map String.mk

/-- Rust `str::splitn(2, c)`: `some (before, after)` at the first occurrence
of `c`, `none` when `c` does not occur. -/
def splitnTwoChar (c : Char) : List Char → Option (List Char × List Char)
  | [] => none
  | x :: xs =>
    if x = c then some ([], xs)
    else (splitnTwoChar c xs).map (fun p => (x :: p.1, p.2))

/-- First occurrence of the substring `sep`: `some (before, after)` without
the separator, as in `str::splitn(2, sep)`. -/
def splitFirstSub (sep : List Char) : List Char → Option (List Char × List Char)
  | [] => none
  | x :: xs =>
    if sep.isPrefixOf (x :: xs) then some ([], (x :: xs).drop sep.length)
    else (splitFirstSub sep xs).map (fun p => (x :: p.1, p.2))

/-- `some (before, from)` at the first occurrence of `c`, where `from` starts
with `c` itself — the shape of Rust `s.find(c)` + `s.split_at(pos)`. -/
def splitAtFirstChar (c : Char) : List Char → Option (List Char × List Char)
  | [] => none
  | x :: xs =>
    if x = c then some ([], x :: xs)
    else (splitAtFirstChar c xs).map (fun p => (x :: p.1, p.2))

/-- Split at the last occurrence of `c`: `[after, before]` when `c` occurs,
`[whole]` otherwise — the collected `str::rsplitn(2, c)`. -/
def rsplitnTwo (c : Char) (l : List Char) : List (List Char) :=
  match splitAtFirstChar c l.reverse with
  | none => [l]
  | some (revAfter, revBefore) => [revAfter.reverse, (revBefore.drop 1).reverse]

def trimCharList (c : Char) (l : List Char) : List Char :=
  ((l.dropWhile (· = c)).reverse.dropWhile (· = c)).reverse

/-- Rust `str::trim` (whitespace at both ends). -/
def rustTrim (s : String) : String :=
  String.mk (((s.toList.dropWhile Char.isWhitespace).reverse.dropWhile
    Char.isWhitespace).reverse)

/-- `trim_matches(|c| c == CR || c == LF)` from `conn.rs::parse_request`. -/
def trimCrLf (s : String) : String :=
  String.mk (((s.toList.dropWhile (fun c => c = '\r' ∨ c = '\n')).reverse.dropWhile
    (fun c => c = '\r' ∨ c = '\n')).reverse)

def strToLower (s : String) : String := String.mk (s.toList.map Char.toLower)

def strToUpper (s : String) : String := String.mk (s.toList.map Char.toUpper)

def isInfixAux (sub : List Char) : List Char → Bool
  | [] => sub.isEmpty
  | x :: xs => sub.isPrefixOf (x :: xs) || isInfixAux sub xs

/-- Rust `str::starts_with` (kernel-reducible replacement for
`String.startsWith`). -/
def strStartsWith (s pre : String) : Bool :=
  pre.toList.isPrefixOf s.toList

/-- Rust `str::ends_with`. -/
def strEndsWith (s suf : String) : Bool :=
  suf.toList.reverse.isPrefixOf s.toList.reverse

def strLen (s : String) : Nat := s.toList.length

/-- Drop the first `n` characters. -/
def strDrop (s : String) (n : Nat) : String := String.mk (s.toList.drop n)

/-- Drop the last `n` characters. -/
def strDropRight (s : String) (n : Nat) : String :=
  String.mk (s.toList.take (s.toList.length - n))

/-- Rust `str::contains(substring)`. -/
def containsSub (sub : List Char) (s : String) : Bool :=
  isInfixAux sub s.toList

/-! ## Regex abstraction -/

/-- External regex library: `ok pat` is whether `Regex::new(pat)` compiles,
`matches pat s` is `Regex::is_match` of the compiled pattern on `s`. -/
structure RegexEngine where
  ok : String → Bool
  isMatch : String → String → Bool

/-- Handler function pointers are opaque; identity is all the claims use. -/
abbrev Callback := Nat

/-! ## support/trie.rs -/

/-- `trie.rs::Field`: one URI segment descriptor.  `validation` stores the
textual pattern of the optional validator regex (the Rust struct stores the
compiled regex; `Field::eq` compares its textual pattern). -/
structure Field where
  name : String
  is_param : Bool
  validation : Option String
deriving DecidableEq, Repr

/-- `trie.rs::Node`.  `named_children` is the name-keyed `HashMap`,
`params_children` the ordered `Vec`. -/
inductive Node where
  | mk (field : Field) (callback : Option Callback) (location : Option String)
      (named_children : List (String × Node)) (params_children : List Node)

def Node.field : Node → Field
  | .mk f _ _ _ _ => f

def Node.callback : Node → Option Callback
  | .mk _ cb _ _ _ => cb

def Node.location : Node → Option String
  | .mk _ _ loc _ _ => loc

def Node.named_children : Node → List (String × Node)
  | .mk _ _ _ nc _ => nc

def Node.params_children : Node → List Node
  | .mk _ _ _ _ pc => pc

/-- `Node::new`. -/
def Node.new (f : Field) (cb : Option Callback) (loc : Option String) : Node :=
  .mk f cb loc [] []

/-- `Node::insert`, processed in `segments.pop()` order, i.e. the input list
reversed; `Node.insert` below applies the reversal.  `none` models the
`panic!("Key collision!")`. -/
def Node.insertRev : Node → List Field → Option Callback → Option String → Option Node
  | self, [], _, _ => some self
  | .mk f cb0 loc0 named params, head :: rest, cb, loc =>
    let child : Option Node :=
      -- `Node::build_new_child`
      match rest with
      | [] => some (Node.new head cb loc)
      | r1 :: rs => Node.insertRev (Node.new head none none) (r1 :: rs) cb loc
    if !head.is_param then
      match assocGet named head.name with
      | some existing =>
        if rest = [] then
          if (cb.isSome && existing.callback.isSome)
              || (loc.isSome && existing.location.isSome) then
            none
          else
            let upd : Node := .mk existing.field
              (if cb.isSome then cb else existing.callback)
              (if loc.isSome then loc else existing.location)
              existing.named_children existing.params_children
            some (.mk f cb0 loc0 (assocUpd named head.name upd) params)
        else
          (Node.insertRev existing rest cb loc).map
            (fun upd => .mk f cb0 loc0 (assocUpd named head.name upd) params)
      | none =>
        child.map (fun ch => .mk f cb0 loc0 (named ++ [(head.name, ch)]) params)
    else
      child.map (fun ch => .mk f cb0 loc0 named (params ++ [ch]))

/-- `Node::insert(segments, ..)` pops fields from the END of `segments`, so
the trie is built from the last segment of the route downwards. -/
def Node.insert (self : Node) (segments : List Field) (cb : Option Callback)
    (loc : Option String) : Option Node :=
  Node.insertRev self segments.reverse cb loc

structure RouteTrie where
  root : Node

/-- `RouteTrie::initialize` (renamed; the Rust name is a reserved token
here): the root node carries the literal field "/". -/
def RouteTrie.mkEmpty : RouteTrie :=
  ⟨Node.new ⟨"/", false, none⟩ none none⟩

/-- `RouteTrie::is_empty`. -/
def RouteTrie.is_empty (t : RouteTrie) : Bool :=
  t.root.named_children.isEmpty && t.root.params_children.isEmpty

/-- `RouteTrie::add`. -/
def RouteTrie.add (t : RouteTrie) (segments : List Field) (cb : Callback) :
    Option RouteTrie :=
  (t.root.insert segments (some cb) none).map RouteTrie.mk

/-- The loop over `root.params_children` inside
`RouteTrie::recursive_find`; `cont` is the recursive call on the remaining
segments.  A failed deeper match pops the LAST accumulated binding
(`params.pop()`), exactly as the Rust code does. -/
def find_params (re : RegexEngine)
    (cont : Node → List (String × String) → Option Callback × List (String × String))
    (head : String) (isTail : Bool) :
    List Node → List (String × String) → Option Callback × List (String × String)
  | [], params => (none, params)
  | child :: rest, params =>
    if child.field.name = "" then
      find_params re cont head isTail rest params
    else if (match child.field.validation with
             | some pat => !re.isMatch pat head
             | none => false) then
      find_params re cont head isTail rest params
    else
      let params1 := params ++ [(child.field.name, head)]
      if isTail then (child.callback, params1)
      else
        match cont child params1 with
        | (some cb, params2) => (some cb, params2)
        | (none, params2) => find_params re cont head isTail rest params2.dropLast

/-- `RouteTrie::recursive_find`.  The Rust function threads `params` as a
shared mutable vector; here it is threaded in and returned. -/
def recursive_find (re : RegexEngine) :
    Node → List String → List (String × String) →
    Option Callback × List (String × String)
  | _, [], params => (none, params)
  | root, head :: rest, params =>
    match assocGet root.named_children head with
    | some child =>
      if rest.isEmpty then (child.callback, params)
      else recursive_find re child rest params
    | none =>
      find_params re (fun child ps => recursive_find re child rest ps)
        head rest.isEmpty root.params_children params

/-- `RouteTrie::find` (its `segments.last()` check is a no-op in the source;
the static-location component of the result is always `None`). -/
def RouteTrie.find (re : RegexEngine) (t : RouteTrie) (segments : List String)
    (params : List (String × String)) :
    Option Callback × List (String × String) :=
  recursive_find re t.root segments params

end RustServer

namespace RustServer

/-! ## support/common.rs -/

/-- `common.rs::MapUpdates::add` for `HashMap<String, T>`: empty keys are
rejected, keys are lowercased; `allow_replace = true` is `insert` (returning
the previous value), `allow_replace = false` is `entry(..).or_insert(..)`
(the FIRST binding of a key survives). -/
def mapAdd (m : List (String × A)) (field : String) (v : A)
    (allow_replace : Bool) : List (String × A) × Option A :=
  if field = "" then (m, none)
  else
    let f := strToLower field
    if allow_replace then (assocInsert m f v, assocGet m f)
    else (assocOrInsert m f v, none)

/-! ## core/router.rs -/

/-- `router.rs::REST`. -/
inductive REST where
  | GET | PATCH | POST | PUT | DELETE | OPTIONS
  | OTHER (token : String)
deriving DecidableEq, Repr

/-- The `ROUTE_ALL` catch-all method sentinel. -/
def ROUTE_ALL : REST := .OTHER "*"

/-- `router.rs::RequestPath`. -/
inductive RequestPath where
  | Explicit (uri : String)
  | ExplicitWithParams (uri : String)
  | WildCard (uri : String)
deriving DecidableEq, Repr

/-- `router.rs::RegexRoute`; `regex` stores the textual source pattern of
the compiled regex. -/
structure RegexRoute where
  regex : String
  handler : Callback
deriving DecidableEq, Repr

/-- `router.rs::RouteMap`.  `wildcard` is a `HashMap<String, RegexRoute>`
keyed by (lowercased) pattern source; the list order below is registration
order, which a real hash map does NOT expose to iteration. -/
structure RouteMap where
  explicit : List (String × Callback)
  explicit_with_params : RouteTrie
  wildcard : List (String × RegexRoute)

/-- `RouteMap::new`. -/
def RouteMap.new : RouteMap :=
  ⟨[], RouteTrie.mkEmpty, []⟩

/-- One step of the `split` closure in `RouteMap::params_parser`: given the
character and the `split_status` automaton state, `none` is a `panic!` and
`some (isSep, st)` tells whether the character splits plus the next state. -/
def ppStep (c : Char) (st : Nat) : Option (Bool × Nat) :=
  if c = ':' ∧ st = 1 then some (false, 2)
  else if c = '(' ∧ st = 2 then some (false, 4)
  else if c = ')' ∧ st = 4 then some (false, 8)
  else if c = '/' ∧ (st = 0 ∨ st = 2 ∨ st = 8) then some (true, 1)
  else if c = '/' ∧ st = 1 then none
  else if st = 2 ∧ ¬ c.isAlphanum then none
  else if st = 8 then none
  else if st = 1 then some (false, 0)
  else some (false, st)

/-- The splitting pass of `params_parser` (`source_uri.split(closure)`):
produces the pieces between separator characters.  `Char.isAlphanum` stands
in for Rust's Unicode `char::is_alphanumeric`; the routes in the claims are
ASCII. -/
def ppScan : List Char → Nat → List Char → List String → Option (List String)
  | [], _, cur, acc => some (acc ++ [String.mk cur.reverse])
  | c :: rest, st, cur, acc =>
    match ppStep c st with
    | none => none
    | some (isSep, st1) =>
      if isSep then ppScan rest st1 [] (acc ++ [String.mk cur.reverse])
      else ppScan rest st1 (c :: cur) acc

/-- The `filter_map` pass of `params_parser`: turns each non-empty piece
into a `Field`, tracking the set of used parameter names.  `none` models the
panics (empty name, empty regex part, duplicate name). -/
def ppFields (re : RegexEngine) :
    List String → List String → List Field → Option (List Field)
  | [], _, acc => some acc
  | s :: rest, names, acc =>
    if s = "" then ppFields re rest names acc
    else if strStartsWith s ":" then
      let name0 := strDrop s 1
      if name0 = "" then none
      else
        let step : Option (String × Option String) :=
          if strLen name0 > 1 ∧ strEndsWith name0 ")" then
            match splitnTwoChar '(' (strDropRight name0 1).toList with
            | some (n, r) =>
              if n = [] then none
              else if r = [] then none
              else if re.ok (String.mk r) then some (String.mk n, some (String.mk r))
              else some (name0, none)
            | none => some (name0, none)
          else some (name0, none)
        match step with
        | none => none
        | some (nm, vd) =>
          if nm ∈ names then none
          else ppFields re rest (nm :: names) (acc ++ [⟨nm, true, vd⟩])
    else ppFields re rest names (acc ++ [⟨s, false, none⟩])

/-- `RouteMap::params_parser`. -/
def paramsParserFields (re : RegexEngine) (source_uri : String) :
    Option (List Field) :=
  (ppScan source_uri.toList 0 [] []).bind (fun pieces => ppFields re pieces [] [])

/-- `RouteMap::insert`.  `none` models the registration-time panics. -/
def RouteMap.insert (re : RegexEngine) (rm : RouteMap) (uri : RequestPath)
    (callback : Callback) : Option RouteMap :=
  match uri with
  | .Explicit req_uri =>
    if req_uri = "" ∨ ¬ strStartsWith req_uri "/" then none
    else some { rm with explicit := (mapAdd rm.explicit req_uri callback false).1 }
  | .WildCard req_uri =>
    if req_uri = "" then none
    else if (assocGet rm.wildcard req_uri).isSome then some rm
    else if re.ok req_uri then
      some { rm with
        wildcard := (mapAdd rm.wildcard req_uri ⟨req_uri, callback⟩ false).1 }
    else some rm
  | .ExplicitWithParams req_uri =>
    if ¬ containsSub ['/', ':'] req_uri ∧ ¬ containsSub [':', '\\'] req_uri then
      some { rm with explicit := (mapAdd rm.explicit req_uri callback false).1 }
    else
      (paramsParserFields re req_uri).bind fun fields =>
        (rm.explicit_with_params.add fields callback).map
          (fun t => { rm with explicit_with_params := t })

/-- `router.rs::search_wildcard_router`, over an explicit entry enumeration
(the Rust code iterates the hash map in its unspecified order). -/
def search_wildcard_router (re : RegexEngine)
    (routes : List (String × RegexRoute)) (uri : String) : Option Callback :=
  match routes with
  | [] => none
  | (_, route) :: rest =>
    if re.isMatch route.regex uri then some route.handler
    else search_wildcard_router re rest uri

/-- `router.rs::search_params_router`. -/
def search_params_router (re : RegexEngine) (route_head : RouteTrie)
    (uri : String) : Option Callback × List (String × String) :=
  let raw_segments := (splitChar '/' (trimCharList '/' uri.toList)).map String.mk
  RouteTrie.find re route_head raw_segments []

/-- `RouteMap::seek_path`.  The Rust function inserts the trie parameters
into a caller-supplied map only on a successful trie match; the returned
list holds exactly those insertions.  For the wildcard hash map we use the
stored (registration-order) enumeration here; order-sensitivity of that map
is treated separately via `search_wildcard_router` over permutations. -/
def RouteMap.seek_path (re : RegexEngine) (rm : RouteMap) (uri : String) :
    Option Callback × List (String × String) :=
  match assocGet rm.explicit uri with
  | some callback => (some callback, [])
  | none =>
    let trieRes : Option Callback × List (String × String) :=
      if ¬ rm.explicit_with_params.is_empty then
        let found := search_params_router re rm.explicit_with_params uri
        if found.1.isSome then found else (none, [])
      else (none, [])
    match trieRes.1 with
    | some _ => trieRes
    | none =>
      if ¬ rm.wildcard.isEmpty then
        (search_wildcard_router re rm.wildcard uri, trieRes.2)
      else (none, trieRes.2)

/-- `router.rs::Route` (its `store` box; the optional `auth_func` is passed
separately where `conn.rs` uses it). -/
structure Route where
  store : List (REST × RouteMap)

def Route.new : Route := ⟨[]⟩

/-- `Route::add_route`. -/
def Route.add_route (re : RegexEngine) (route : Route) (method : REST)
    (uri : RequestPath) (callback : Callback) : Option Route :=
  match assocGet route.store method with
  | some rm =>
    (rm.insert re uri callback).map
      (fun rm1 => ⟨assocUpd route.store method rm1⟩)
  | none =>
    (RouteMap.new.insert re uri callback).map
      (fun rm1 => ⟨route.store ++ [(method, rm1)]⟩)

/-- `RouteHandler::seek_handler` for `Route`: method table, header-only GET
fallback, then the `ROUTE_ALL` catch-all table if no handler was found.  The
Rust function sends `(result, params)` over a channel; we return it. -/
def Route.seek_handler (re : RegexEngine) (route : Route) (method : REST)
    (uri : String) (header_only : Bool) :
    Option Callback × List (String × String) :=
  let primary : Option Callback × List (String × String) :=
    match assocGet route.store method with
    | some routes => routes.seek_path re uri
    | none =>
      if header_only then
        match assocGet route.store REST.GET with
        | some routes => routes.seek_path re uri
        | none => (none, [])
      else (none, [])
  match primary.1 with
  | some _ => primary
  | none =>
    match assocGet route.store ROUTE_ALL with
    | some all_routes =>
      let found := all_routes.seek_path re uri
      (found.1, primary.2 ++ found.2)
    | none => primary

end RustServer

namespace RustServer

/-! ## core/http.rs (not among the sources) — spec-modelled data -/

/-- Modelled from the spec: `core/http.rs` is missing from the sources, so
`Request` is taken from §3 of the spec: method, normalized URI, query-scheme
map (key to list of values), fragment, header map (lowercased keys), cookie
map, body as ordered list of lines, path-parameter map, host.  The client
socket address is irrelevant to every claim and omitted. -/
structure Request where
  method : REST
  uri : String
  scheme : List (String × List String)
  fragment : String
  headers : List (String × String)
  cookies : List (String × String)
  bodies : List String
  params : List (String × String)
  host : String
deriving DecidableEq, Repr

/-- Modelled from the spec: a fresh `Request` starts with every collection
empty; the method defaults to the GET variant. -/
def Request.new : Request :=
  ⟨.GET, "", [], "", [], [], [], [], ""⟩

/-- Modelled from the spec: `Request::header` looks the (lowercased-at-write)
key up in the header map. -/
def Request.header (req : Request) (key : String) : Option String :=
  assocGet req.headers key

/-- Modelled from the spec: `RequestWriter::write_header` stores a header
through the same `MapUpdates::add` policy as `common.rs` (lowercased key,
replace or keep-first per flag). -/
def Request.write_header (req : Request) (key value : String)
    (allow_replace : Bool) : Request :=
  { req with headers := (mapAdd req.headers key value allow_replace).1 }

/-- Modelled from the spec: plain field setters of the missing http.rs. -/
def Request.set_fragment (req : Request) (f : String) : Request :=
  { req with fragment := f }

def Request.create_scheme (req : Request) (s : List (String × List String)) :
    Request :=
  { req with scheme := s }

def Request.create_param (req : Request) (p : List (String × String)) :
    Request :=
  { req with params := p }

def Request.set_headers (req : Request) (h : List (String × String)) : Request :=
  { req with headers := h }

def Request.set_cookies (req : Request) (c : List (String × String)) : Request :=
  { req with cookies := c }

def Request.set_bodies (req : Request) (b : List String) : Request :=
  { req with bodies := b }

def Request.set_host (req : Request) (h : String) : Request :=
  { req with host := h }

/-- Modelled from the spec: `Response` state relevant to the claims — status
code, header map, keep-alive flag, header-only flag, redirect target,
content type (§3).  Body content is not tracked; whether body bytes reach
the wire is recorded by `WireTrace` below. -/
structure Response where
  status : Nat
  headers : List (String × String)
  keepAlive : Bool
  headerOnly : Bool
  redirect : String
  contentType : String
deriving DecidableEq, Repr

/-- Modelled from the spec: a fresh `Response` is a 200 response with no
headers, keep-alive off, NOT in header-only mode (header-only is only
induced by a HEAD-equivalent request verb, §4.1/§6), and no redirect. -/
def Response.new : Response :=
  ⟨200, [], false, false, "", ""⟩

def Response.can_keep_alive (r : Response) (b : Bool) : Response :=
  { r with keepAlive := b }

/-- Modelled from the spec: `keep_alive` sets the same keep-alive flag that
`can_keep_alive` sets and `to_keep_alive` reads. -/
def Response.keep_alive (r : Response) (b : Bool) : Response :=
  { r with keepAlive := b }

def Response.to_keep_alive (r : Response) : Bool := r.keepAlive

def Response.header_only (r : Response) (b : Bool) : Response :=
  { r with headerOnly := b }

def Response.is_header_only (r : Response) : Bool := r.headerOnly

def Response.set_status (r : Response) (s : Nat) : Response :=
  { r with status := s }

def Response.header (r : Response) (key value : String) (replace : Bool) :
    Response :=
  { r with headers := (mapAdd r.headers key value replace).1 }

def Response.get_redirect_path (r : Response) : String := r.redirect

def Response.get_content_type (r : Response) : String := r.contentType

def Response.set_content_type (r : Response) (t : String) : Response :=
  { r with contentType := t }

/-- Modelled from the spec: `validate_and_update` finalizes status and
default error-page content; the spec gives it no effect on the status code
already set, the keep-alive flag or the header-only flag, which is all the
claims read. -/
def Response.validate_and_update (r : Response) : Response := r

/-! ## core/router.rs — request dispatch -/

/-- The action a handler function pointer performs on the response; handlers
are external code, so this is a parameter of the embedding. -/
abbrev HandlerAction := Callback → Request → Response → Response

/-- `RouteHandler::handle_request` for `Route`: invoke the callback, then
turn a non-empty redirect target into a 301 plus `Location` header (leading
slash normalized). -/
def Route.handle_request (act : HandlerAction) (callback : Callback)
    (req : Request) (resp : Response) : Response :=
  let resp1 := act callback req resp
  let redirect := resp1.get_redirect_path
  if redirect ≠ "" then
    let redirect1 := if ¬ strStartsWith redirect "/" then "/" ++ redirect
                     else redirect
    (resp1.header "Location" redirect1 true).set_status 301
  else resp1

/-! ## core/conn.rs -/

/-- `conn.rs::ConnError`. -/
inductive ConnError where
  | EmptyRequest
  | ReadStreamFailure
  | AccessDenied
  | ServiceUnavailable
deriving DecidableEq, Repr

/-- What `write_to_stream` put on (or did to) the socket: whether the header
block, the blank separator line and body bytes were serialized, whether the
(chunked) keep-alive streaming loop was entered, and whether the stream was
shut down in both directions. -/
structure WireTrace where
  wroteHeader : Bool
  wroteBlank : Bool
  wroteBody : Bool
  enteredKeepAliveLoop : Bool
  shutdown : Bool
deriving DecidableEq, Repr

/-- I/O outcomes outside the program's control: whether `flush` succeeds,
whether `shutdown` succeeds, whether `try_clone` succeeds. -/
structure IOOracle where
  flushOk : Bool
  shutdownOk : Bool
  cloneOk : Bool
deriving DecidableEq, Repr

/-- `conn.rs::write_to_stream`: header, blank line, then — unless
header-only — either body + bounded flush retries + shutdown (keep-alive
off) or the chunked keep-alive streaming loop followed by shutdown.  Returns
the trace plus the `ExecCode`. -/
def write_to_stream (io : IOOracle) (response : Response) : WireTrace × Nat :=
  if response.is_header_only then
    (⟨true, true, false, false, false⟩, if io.flushOk then 0 else 1)
  else if !response.to_keep_alive then
    (⟨true, true, true, false, true⟩, if io.shutdownOk then 0 else 1)
  else
    (⟨true, true, io.cloneOk, io.cloneOk, true⟩, if io.shutdownOk then 0 else 1)

/-- `conn.rs::build_err_response`. -/
def build_err_response (err_status : Nat) : Response :=
  let resp := (Response.new.set_status err_status).validate_and_update
  let resp := resp.keep_alive false
  if resp.get_content_type = "" then resp.set_content_type "text/html"
  else resp

/-- The `connection`-header match opening `conn.rs::handle_response`. -/
def connectionKeepAlive (req : Request) (response : Response) : Response :=
  match req.header "connection" with
  | some v => if v = "close" then response.can_keep_alive false
              else response.can_keep_alive true
  | none => response.can_keep_alive true

/-- `conn.rs::handle_response`: keep-alive from the `connection` header,
header-only for the literal method `HEAD`, dispatch through
`Route::handle_request`, then write.  Returns the final response alongside
the wire trace and exec code. -/
def handle_response (act : HandlerAction) (io : IOOracle) (callback : Callback)
    (req : Request) (response : Response) : Response × WireTrace × Nat :=
  let resp1 := connectionKeepAlive req response
  let resp2 := if req.method = REST.OTHER "HEAD" then resp1.header_only true
               else resp1
  let resp3 := Route.handle_request act callback req resp2
  let resp4 := resp3.validate_and_update
  (resp4, write_to_stream io resp4)

end RustServer

namespace RustServer

/-- `conn.rs::split_path`: trim, split at the LAST slash, extract the
fragment at the first `#` of the trailing component (the `#` stays in the
fragment), then the query at the first `?` (the `?` stays in the scheme).
With a query the directory and leaf are rejoined with a single `/`; without
one, the original trimmed target (fragment text included) is kept, minus one
trailing `/` when longer than one character.  Returns
`(uri, scheme, fragment)`; `none` is the `uri_parts[1]` index panic (target
containing `?` but no `/`). -/
def split_path (full_uri : String) : Option (String × String × String) :=
  let uri := rustTrim full_uri
  if uri = "" then some ("/", "", "")
  else
    let l := uri.toList
    let parts := rsplitnTwo '/' l
    let part0 := parts.headD []
    let (part0f, frag) :=
      match splitAtFirstChar '#' part0 with
      | some (before, fromHash) => (before, String.mk fromHash)
      | none => (part0, "")
    match splitAtFirstChar '?' part0f with
    | some (before, fromQ) =>
      match parts.get? 1 with
      | none => none
      | some part1 =>
        let u := if part1 = [] then String.mk ('/' :: before)
                 else String.mk (part1 ++ '/' :: before)
        some (u, rustTrim (String.mk fromQ), frag)
    | none =>
      let u := if strLen uri > 1 ∧ strEndsWith uri "/" then String.mk l.dropLast
               else uri
      some (u, "", frag)

/-- `conn.rs::scheme_parser` (the name avoids a reserved suffix): split the
query string on `&`, each pair at the first `=`; repeated keys append to the
value list. -/
def schemeParse (scheme : String) : List (String × List String) :=
  let pairs := (splitChar '&' (rustTrim scheme).toList).map String.mk
  pairs.foldl
    (fun acc kv_pair =>
      let t := rustTrim kv_pair
      let (key, val) :=
        match splitnTwoChar '=' t.toList with
        | some (k, v) => (rustTrim (String.mk k), rustTrim (String.mk v))
        | none => (rustTrim t, "")
      match assocGet acc key with
      | some vs => assocUpd acc key (vs ++ [val])
      | none => acc ++ [(key, [val])])
    []

/-- `conn.rs::cookie_parser` (the name avoids a reserved suffix): split the
cookie header body on `;`, each pair at the first `=`; `MapUpdates::add`
with `allow_replace = false` keeps the first occurrence of a key; a pair
without `=` stores an empty value. -/
def cookieParse (cookie : List (String × String)) (cookie_body : String) :
    List (String × String) :=
  if cookie_body = "" then cookie
  else
    ((splitChar ';' (rustTrim cookie_body).toList).map String.mk).foldl
      (fun acc set =>
        let t := rustTrim set
        match splitnTwoChar '=' t.toList with
        | some (k, v) =>
          (mapAdd acc (rustTrim (String.mk k)) (rustTrim (String.mk v)) false).1
        | none => (mapAdd acc (rustTrim t) "" false).1)
      cookie

/-- Rust `str::lines`: split on LF, a CR immediately before a LF is
stripped, a trailing line terminator yields no extra empty line. -/
def rustLines (s : String) : List String :=
  if s = "" then []
  else
    let pieces := (splitChar '\n' s.toList).map String.mk
    let stripCr : String → String := fun p =>
      if strEndsWith p "\r" then strDropRight p 1 else p
    match pieces.getLast? with
    | some "" => pieces.dropLast.map stripCr
    | _ => pieces.dropLast.map stripCr ++ [pieces.getLastD ""]

/-- `conn.rs::deserialize_headers` applied to one line, tupled state
`(header, cookie, body)`. -/
def deserialize_headers (line : String) (is_body : Bool)
    (st : List (String × String) × List (String × String) × List String) :
    List (String × String) × List (String × String) × List String :=
  let (header, cookie, body) := st
  if !is_body then
    match splitnTwoChar ':' (rustTrim line).toList with
    | some (k, v) =>
      let header_key := rustTrim (String.mk k)
      let info := rustTrim (String.mk v)
      if header_key = "cookie" then (header, cookieParse cookie info, body)
      else if header_key ≠ "" then
        ((mapAdd header header_key info true).1, cookie, body)
      else (header, cookie, body)
    | none => (header, cookie, body)
  else (header, cookie, body ++ [line])

/-- The worker-pool closure over the remainder in `conn.rs::deserialize`:
line loop with the blank-line switch into body mode. -/
def parseRemainderLines :
    List String → Bool →
    (List (String × String) × List (String × String) × List String) →
    List (String × String) × List (String × String) × List String
  | [], _, st => st
  | line :: rest, is_body, st =>
    if line = "" ∧ ¬ is_body then parseRemainderLines rest true st
    else parseRemainderLines rest is_body (deserialize_headers line is_body st)

def parseRemainder (remainder : String) :
    List (String × String) × List (String × String) × List String :=
  parseRemainderLines (rustLines remainder) false ([], [], [])

/-- Token 0 of the request line: the `HEADER` check of
`deserialize_baseline` (evaluated in the `REST::OTHER` arm in the source,
but equal to this for every token since no built-in method uppercases to
`HEADER`). -/
def baselineHeaderOnly (tokens : List String) : Bool :=
  match tokens.get? 0 with
  | some t => strToUpper t = "HEADER"
  | none => false

/-- Token 0 of the request line: the method match of `deserialize_baseline`. -/
def baselineMethod (tokens : List String) (req : Request) : Request :=
  match tokens.get? 0 with
  | some t =>
    let base_method :=
      match strToUpper t with
      | "GET" => REST.GET
      | "PUT" => REST.PUT
      | "POST" => REST.POST
      | "DELETE" => REST.DELETE
      | "OPTIONS" => REST.OPTIONS
      | others => REST.OTHER others
    { req with method := base_method }
  | none => req

/-- Token 1 of the request line: `split_path` pushed onto `req.uri`, with
the raw scheme and fragment strings; `none` propagates the panic. -/
def baselinePath (tokens : List String) (req1 : Request) :
    Option (Request × String × String) :=
  match tokens.get? 1 with
  | some t =>
    match split_path t with
    | none => none
    | some (u, raw_scheme, raw_fragment) =>
      some ({ req1 with uri := req1.uri ++ u }, raw_scheme, raw_fragment)
  | none => some (req1, "", "")

/-- Token 2 of the request line: the `HTTP_VERSION` header write. -/
def baselineVersion (tokens : List String) (req2 : Request) : Request :=
  match tokens.get? 2 with
  | some v => req2.write_header "HTTP_VERSION" v true
  | none => req2

/-- `conn.rs::deserialize_baseline`: method token (uppercased; the literal
`HEADER` sets the routing-side header-only flag), target decomposition via
`split_path`, `HTTP_VERSION` header from the third token; when the resulting
URI is non-empty a `seek_handler` lookup is dispatched and its future result
is the second component.  `none` propagates the `split_path` panic. -/
def deserialize_baseline (re : RegexEngine) (route : Route) (source : String)
    (req : Request) :
    Option (Request × Option (Option Callback × List (String × String))) :=
  let tokens := splitWhitespaceStr source
  match baselinePath tokens (baselineMethod tokens req) with
  | none => none
  | some (req2, raw_scheme, raw_fragment) =>
    let req3 := baselineVersion tokens req2
    if req3.uri ≠ "" then
      let sent := Route.seek_handler re route req3.method req3.uri
        (baselineHeaderOnly tokens)
      let req4 := if raw_fragment ≠ "" then req3.set_fragment raw_fragment
                  else req3
      let req5 := if raw_scheme ≠ "" then req4.create_scheme (schemeParse raw_scheme)
                  else req4
      some (req5, some sent)
    else some (req3, none)

/-- Whether the two bounded channel receives in `conn.rs::deserialize`
succeed (the route lookup within 128 ms, the remainder within 8 s). -/
structure RecvOracle where
  baselineOk : Bool
  remainderOk : Bool
deriving DecidableEq, Repr

/-- The remainder-channel receive of `conn.rs::deserialize`: a received
`(header, cookie, body)` triple replaces the request's maps wholesale; a
timed-out receive leaves the request as it was. -/
def applyRemainder
    (remChan : Option (List (String × String) × List (String × String) × List String))
    (recvOk : Bool) (req2 : Request) : Request :=
  match remChan, recvOk with
  | some (header, cookie, body), true =>
    ((req2.set_headers header).set_cookies cookie).set_bodies body
  | _, _ => req2

/-- The body of `conn.rs::deserialize` once the raw request has been split
into the baseline and the optional remainder: the remainder task's result is
consumed only inside the `if let Some(rx) = baseline_chan` block, i.e. only
when the baseline produced a non-empty URI and hence a route-lookup
channel. -/
def deserialize_with (re : RegexEngine) (route : Route) (orc : RecvOracle)
    (baseline : String) (remainder : Option String) (store : Request) :
    Option (Option Callback × Request) :=
  match deserialize_baseline re route baseline store with
  | none => none
  | some (req1, baseline_chan) =>
    let remainder_chan :=
      match remainder with
      | some rem => if rem ≠ "" then some (parseRemainder rem) else none
      | none => none
    match baseline_chan with
    | none => some (none, req1)
    | some route_info =>
      let resReq2 : Option Callback × Request :=
        if orc.baselineOk then
          (route_info.1,
           if route_info.1.isSome then req1.create_param route_info.2 else req1)
        else (none, req1)
      some (resReq2.1, applyRemainder remainder_chan orc.remainderOk resReq2.2)

/-- `conn.rs::deserialize`: split the trimmed raw request at the first CRLF
into a baseline line and a remainder, then proceed with both. -/
def deserialize (re : RegexEngine) (route : Route) (orc : RecvOracle)
    (request : String) (store : Request) : Option (Option Callback × Request) :=
  if request = "" then some (none, store)
  else
    let trimmed := rustTrim request
    match splitFirstSub ['\r', '\n'] trimmed.toList with
    | some (b, r) =>
      deserialize_with re route orc (String.mk b) (some (String.mk r)) store
    | none => deserialize_with re route orc trimmed none store

/-- The authorization predicate (`router.rs::AuthFunc`), injected optionally. -/
abbrev AuthFunc := Request → String → Bool

/-- The host-header step of `conn.rs::parse_request`. -/
def applyHost (req : Request) : Request :=
  match req.header "host" with
  | some host_name => req.set_host host_name
  | none => req

/-- `conn.rs::parse_request`: `none` input models a failed `stream.read`;
a CR/LF-only buffer is `EmptyRequest`; the auth predicate is consulted
before the callback presence, whose absence is `ServiceUnavailable`.  The
outer `Option` is panic propagation. -/
def parse_request (re : RegexEngine) (route : Route) (orc : RecvOracle)
    (auth_func : Option AuthFunc) (readResult : Option String) :
    Option (Except ConnError Callback × Request) :=
  match readResult with
  | none => some (.error .ReadStreamFailure, Request.new)
  | some request_raw =>
    if trimCrLf request_raw = "" then some (.error .EmptyRequest, Request.new)
    else
      match deserialize re route orc request_raw Request.new with
      | none => none
      | some (callback, req1) =>
        let req2 := applyHost req1
        let authorized :=
          match auth_func with
          | some auth => auth req2 req2.uri
          | none => true
        if !authorized then some (.error .AccessDenied, req2)
        else
          match callback with
          | some cb => some (.ok cb, req2)
          | none => some (.error .ServiceUnavailable, req2)

/-- The observable outcome of `conn.rs::handle_connection` for one request:
an error response with the given status was serialized, a handler was
dispatched, or the socket was closed with no response bytes written. -/
inductive ConnOutcome where
  | respondedErr (status : Nat)
  | handled (callback : Callback)
  | closedNoBytes
deriving DecidableEq, Repr

/-- `conn.rs::handle_connection`, up to the observable outcome: the
`ConnError`-to-status mapping, the silent shutdown on a read failure, and
handler dispatch on success.  `none` is a panic escaping the connection
thread. -/
def handle_connection (re : RegexEngine) (route : Route) (orc : RecvOracle)
    (auth_func : Option AuthFunc) (readResult : Option String) :
    Option ConnOutcome :=
  match parse_request re route orc auth_func readResult with
  | none => none
  | some (.error err, _) =>
    match err with
    | .EmptyRequest => some (.respondedErr 400)
    | .AccessDenied => some (.respondedErr 401)
    | .ServiceUnavailable => some (.respondedErr 404)
    | .ReadStreamFailure => some .closedNoBytes
  | some (.ok cb, _) => some (.handled cb)

end RustServer

namespace RustServer

/-! ## Concrete instances used by the theorems below -/

/-- A regex engine on which every pattern compiles and matches everything
(used where validators and wildcard patterns are absent or irrelevant). -/
def reW : RegexEngine := ⟨fun _ => true, fun _ _ => true⟩

/-- A regex engine on which every pattern compiles and a pattern matches a
string exactly when it occurs in it as a substring — the shape of an
unanchored regex over a literal pattern. -/
def reSub : RegexEngine :=
  ⟨fun _ => true, fun pat s => isInfixAux pat.toList s.toList⟩

/-- Both channel receives succeed within their bounds. -/
def orcW : RecvOracle := ⟨true, true⟩

/-- All socket operations succeed. -/
def ioT : IOOracle := ⟨true, true, true⟩

/-- A handler that leaves the response untouched. -/
def noopAct : HandlerAction := fun _ _ r => r

/-- Register a list of `Explicit` routes in order (`RouteMap::insert` with
`RequestPath::Explicit`, chained). -/
def registerExplicitList (re : RegexEngine) :
    RouteMap → List (String × Callback) → Option RouteMap
  | rm, [] => some rm
  | rm, (p, cb) :: rest =>
    match RouteMap.insert re rm (.Explicit p) cb with
    | none => none
    | some rm1 => registerExplicitList re rm1 rest

/-- The handler of the FIRST registration whose (non-empty) path lowercases
to `uri` — what the explicit map actually retains for `uri`. -/
def firstExplicitBinding (regs : List (String × Callback)) (uri : String) :
    Option Callback :=
  ((regs.filter (fun e => e.1 ≠ "" ∧ strToLower e.1 = uri)).head?).map (·.2)

/-- Two wildcard registrations, patterns "a" then "b". -/
def rmC3 : Option RouteMap :=
  (RouteMap.new.insert reSub (.WildCard "a") 1).bind
    (fun rm => rm.insert reSub (.WildCard "b") 2)

/-- Trie with the segment lists [b, :x] (handler 1) and [:y] (handler 2)
added through `RouteTrie::add`: the root gets the parameter children
`:x` (a branch whose only leaf is the literal `b`) and `:y` (a leaf). -/
def tC4 : Option RouteTrie :=
  (RouteTrie.mkEmpty.add [⟨"b", false, none⟩, ⟨"x", true, none⟩] 1).bind
    (fun t => t.add [⟨"y", true, none⟩] 2)

/-- Trie with the segment lists [c, :x] (handler 1) and [b, :y] (handler 2):
root parameter children `:x` (leaf child `c`) and `:y` (leaf child `b`). -/
def tC4deep : Option RouteTrie :=
  (RouteTrie.mkEmpty.add [⟨"c", false, none⟩, ⟨"x", true, none⟩] 1).bind
    (fun t => t.add [⟨"b", false, none⟩, ⟨"y", true, none⟩] 2)

/-- The routes "/a/:q/:p" (handler 1) and "/w/:s" (handler 2) registered
through the public `ExplicitWithParams` path.  With the end-first trie build
this yields root parameter children `:p` (below it `:q`, below that the
literal `a` carrying handler 1) and `:s` (below it the literal `w` carrying
handler 2). -/
def rmC4 : Option RouteMap :=
  (RouteMap.new.insert reW (.ExplicitWithParams "/a/:q/:p") 1).bind
    (fun rm => rm.insert reW (.ExplicitWithParams "/w/:s") 2)

/-- A GET table holding the single explicit route "/a" with handler 5. -/
def rmGet5 : RouteMap := { RouteMap.new with explicit := [("/a", 5)] }

/-- A router whose store has exactly the GET table `rmGet5`. -/
def routeG : Route := ⟨[(.GET, rmGet5)]⟩

/-- A request whose method token was the literal `HEADER` (uppercased). -/
def reqHeaderTok : Request := { Request.new with method := .OTHER "HEADER" }

/-- A request whose method token was the literal `HEAD` (uppercased). -/
def reqHeadTok : Request := { Request.new with method := .OTHER "HEAD" }

end RustServer

namespace RustServer

/-! ## Helper lemmas -/

theorem assocGet_assocOrInsert (m : List (String × A)) (k : String) (v : A)
    (u : String) :
    assocGet (assocOrInsert m k v) u =
      match assocGet m u with
      | some w => some w
      | none => if k = u then some v else none := by
  induction m with
  | nil => simp [assocOrInsert, assocGet]
  | cons e rest ih =>
    obtain ⟨k1, v1⟩ := e
    by_cases h1 : k1 = k
    · have hlist : assocOrInsert ((k1, v1) :: rest) k v = (k1, v1) :: rest := by
        simp [assocOrInsert, h1]
      rw [hlist]
      by_cases h2 : k1 = u
      · have hget : assocGet ((k1, v1) :: rest) u = some v1 := by
          simp [assocGet, h2]
        rw [hget]
      · have hku : ¬ k = u := fun hh => h2 (by rw [h1]; exact hh)
        have hget : assocGet ((k1, v1) :: rest) u = assocGet rest u := by
          simp [assocGet, h2]
        rw [hget]
        cases hr : assocGet rest u <;> simp [hku]
    · have hlist : assocOrInsert ((k1, v1) :: rest) k v
          = (k1, v1) :: assocOrInsert rest k v := by
        simp [assocOrInsert, h1]
      rw [hlist]
      by_cases h2 : k1 = u
      · have hgl : assocGet ((k1, v1) :: assocOrInsert rest k v) u = some v1 := by
          simp [assocGet, h2]
        have hgr : assocGet ((k1, v1) :: rest) u = some v1 := by
          simp [assocGet, h2]
        rw [hgl, hgr]
      · have hgl : assocGet ((k1, v1) :: assocOrInsert rest k v) u
            = assocGet (assocOrInsert rest k v) u := by
          simp [assocGet, h2]
        have hgr : assocGet ((k1, v1) :: rest) u = assocGet rest u := by
          simp [assocGet, h2]
        rw [hgl, hgr, ih]

theorem search_wildcard_mem (re : RegexEngine)
    (l : List (String × RegexRoute)) (uri : String) (cb : Callback) :
    search_wildcard_router re l uri = some cb →
    ∃ p r, (p, r) ∈ l ∧ re.isMatch r.regex uri = true ∧ r.handler = cb := by
  induction l with
  | nil => simp [search_wildcard_router]
  | cons e rest ih =>
    obtain ⟨p, r⟩ := e
    by_cases h : re.isMatch r.regex uri
    · simp only [search_wildcard_router, if_pos h]
      intro hcb
      exact ⟨p, r, List.mem_cons_self _ _, h, by injection hcb⟩
    · simp only [search_wildcard_router, if_neg h]
      intro hcb
      obtain ⟨p1, r1, hmem, hm, hh⟩ := ih hcb
      exact ⟨p1, r1, List.mem_cons_of_mem _ hmem, hm, hh⟩

theorem search_wildcard_none (re : RegexEngine)
    (l : List (String × RegexRoute)) (uri : String) :
    search_wildcard_router re l uri = none →
    ∀ p r, (p, r) ∈ l → re.isMatch r.regex uri = false := by
  induction l with
  | nil => simp
  | cons e rest ih =>
    obtain ⟨p, r⟩ := e
    by_cases h : re.isMatch r.regex uri
    · simp [search_wildcard_router, h]
    · simp only [search_wildcard_router, if_neg h]
      intro hnone p1 r1 hmem
      rcases List.mem_cons.mp hmem with heq | hmem1
      · cases heq; simpa using h
      · exact ih hnone p1 r1 hmem1

theorem find_params_prefix (re : RegexEngine)
    (cont : Node → List (String × String) → Option Callback × List (String × String))
    (head : String) (isTail : Bool)
    (hcont : ∀ child ps, ∃ extra, (cont child ps).2 = ps ++ extra) :
    ∀ (children : List Node) (params : List (String × String)),
      ∃ extra, (find_params re cont head isTail children params).2
        = params ++ extra := by
  intro children
  induction children with
  | nil =>
    intro params
    exact ⟨[], by simp [find_params]⟩
  | cons child rest ih =>
    intro params
    simp only [find_params]
    split
    · exact ih params
    · split
      · exact ih params
      · split
        · exact ⟨[(child.field.name, head)], rfl⟩
        · obtain ⟨extraC, hC⟩ :=
            hcont child (params ++ [(child.field.name, head)])
          split
          next cb params2 hc =>
            rw [hc] at hC
            have hC2 : params2 = params ++ [(child.field.name, head)] ++ extraC :=
              hC
            exact ⟨[(child.field.name, head)] ++ extraC,
              hC2.trans (List.append_assoc _ _ _)⟩
          next params2 hc =>
            rw [hc] at hC
            have hC2 : params2 = params ++ [(child.field.name, head)] ++ extraC :=
              hC
            obtain ⟨extra2, h2⟩ := ih params2.dropLast
            refine ⟨([(child.field.name, head)] ++ extraC).dropLast ++ extra2, ?_⟩
            rw [h2, hC2, List.append_assoc,
              List.dropLast_append_of_ne_nil params (by simp),
              List.append_assoc]

/-- The parameter collection only ever grows across one search: the single
`params.pop()` after a failed deeper exploration removes the most recently
accumulated binding, never one that predates the call. -/
theorem recursive_find_prefix (re : RegexEngine) :
    ∀ (segs : List String) (node : Node) (params : List (String × String)),
      ∃ extra, (recursive_find re node segs params).2 = params ++ extra := by
  intro segs
  induction segs with
  | nil =>
    intro node params
    exact ⟨[], by simp [recursive_find]⟩
  | cons head rest ih =>
    intro node params
    simp only [recursive_find]
    split
    · split
      · exact ⟨[], by simp⟩
      · exact ih _ params
    · exact find_params_prefix re _ head rest.isEmpty
        (fun child ps => ih child ps) node.params_children params

theorem str_nil_append (s : String) : "" ++ s = s := rfl

theorem uri_write_header (r : Request) (k v : String) (b : Bool) :
    (Request.write_header r k v b).uri = r.uri := rfl

theorem uri_set_fragment (r : Request) (f : String) :
    (Request.set_fragment r f).uri = r.uri := rfl

theorem uri_create_scheme (r : Request) (s : List (String × List String)) :
    (Request.create_scheme r s).uri = r.uri := rfl

theorem uri_create_param (r : Request) (p : List (String × String)) :
    (Request.create_param r p).uri = r.uri := rfl

theorem uri_set_headers (r : Request) (h : List (String × String)) :
    (Request.set_headers r h).uri = r.uri := rfl

theorem uri_set_cookies (r : Request) (c : List (String × String)) :
    (Request.set_cookies r c).uri = r.uri := rfl

theorem uri_set_bodies (r : Request) (b : List String) :
    (Request.set_bodies r b).uri = r.uri := rfl

theorem uri_applyRemainder
    (x : Option (List (String × String) × List (String × String) × List String))
    (bk : Bool) (rq : Request) :
    (applyRemainder x bk rq).uri = rq.uri := by
  unfold applyRemainder
  split <;> rfl

theorem split_path_uri_ne (t u sch fr : String)
    (h : split_path t = some (u, sch, fr)) : u ≠ "" := by
  unfold split_path at h
  by_cases h0 : rustTrim t = ""
  · rw [if_pos h0] at h
    injection h with h
    injection h with hu _
    subst hu
    decide
  · rw [if_neg h0] at h
    simp only [] at h
    split at h
    next before fromQ hq =>
      split at h
      next => exact absurd h (by simp)
      next part1 hp1 =>
        injection h with h
        injection h with hu _
        subst hu
        split
        next =>
          intro hnil
          have hd := congrArg String.data hnil
          simp at hd
        next hne =>
          intro hnil
          have hd := congrArg String.data hnil
          simp only [] at hd
          exact hne (List.append_eq_nil.mp hd).1
    next hq =>
      injection h with h
      injection h with hu _
      subst hu
      split
      next hc =>
        have hlen : 1 < (rustTrim t).toList.length := hc.1
        intro hnil
        have hd : (rustTrim t).toList.dropLast = ([] : List Char) :=
          congrArg String.data hnil
        have hlend := congrArg List.length hd
        rw [List.length_dropLast] at hlend
        simp only [List.length_nil] at hlend
        omega
      next => exact h0

end RustServer

namespace RustServer

theorem baselineMethod_uri (tokens : List String) (req : Request) :
    (baselineMethod tokens req).uri = req.uri := by
  unfold baselineMethod; split <;> rfl

theorem baselineMethod_headers (tokens : List String) (req : Request) :
    (baselineMethod tokens req).headers = req.headers := by
  unfold baselineMethod; split <;> rfl

theorem baselineMethod_cookies (tokens : List String) (req : Request) :
    (baselineMethod tokens req).cookies = req.cookies := by
  unfold baselineMethod; split <;> rfl

theorem baselineMethod_bodies (tokens : List String) (req : Request) :
    (baselineMethod tokens req).bodies = req.bodies := by
  unfold baselineMethod; split <;> rfl

theorem baselineVersion_uri (tokens : List String) (req : Request) :
    (baselineVersion tokens req).uri = req.uri := by
  unfold baselineVersion; split <;> rfl

theorem baselineVersion_of_short (tokens : List String) (req : Request)
    (h : tokens.get? 2 = none) : baselineVersion tokens req = req := by
  unfold baselineVersion; rw [h]

theorem baseline_new_no_uri (re : RegexEngine) (route : Route) (src : String)
    (r1 : Request) (chanv : Option (Option Callback × List (String × String)))
    (hb : deserialize_baseline re route src Request.new = some (r1, chanv))
    (huri : r1.uri = "") :
    chanv = none ∧ r1.headers = [] ∧ r1.cookies = [] ∧ r1.bodies = [] := by
  simp only [deserialize_baseline] at hb
  cases hbp : baselinePath (splitWhitespaceStr src)
      (baselineMethod (splitWhitespaceStr src) Request.new) with
  | none => rw [hbp] at hb; exact absurd hb (by simp)
  | some x =>
    obtain ⟨req2, sch, fr⟩ := x
    rw [hbp] at hb
    simp only [] at hb
    by_cases hu : (baselineVersion (splitWhitespaceStr src) req2).uri ≠ ""
    · rw [if_pos hu] at hb
      injection hb with hb1
      injection hb1 with hbr hbc
      have hsame : r1.uri = (baselineVersion (splitWhitespaceStr src) req2).uri := by
        rw [← hbr]
        split <;> split <;>
          simp [Request.set_fragment, Request.create_scheme]
      exact absurd (hsame.symm.trans huri) hu
    · rw [if_neg hu] at hb
      injection hb with hb1
      injection hb1 with hbr hbc
      push_neg at hu
      -- `req2` came from `baselinePath`; its URI is empty only when the
      -- request line had no second token.
      unfold baselinePath at hbp
      cases ht1 : (splitWhitespaceStr src).get? 1 with
      | some t =>
        rw [ht1] at hbp
        simp only [] at hbp
        cases hsp : split_path t with
        | none => rw [hsp] at hbp; exact absurd hbp (by simp)
        | some usf =>
          obtain ⟨u, sch1, fr1⟩ := usf
          rw [hsp] at hbp
          simp only [] at hbp
          have hune : u ≠ "" := split_path_uri_ne t u sch1 fr1 hsp
          injection hbp with hbp1
          injection hbp1 with hbpr _
          rw [baselineVersion_uri] at hu
          rw [← hbpr] at hu
          simp only [baselineMethod_uri] at hu
          exact absurd (by simpa [Request.new, str_nil_append] using hu) hune
      | none =>
        rw [ht1] at hbp
        injection hbp with hbp1
        injection hbp1 with hbpr _
        have ht2 : (splitWhitespaceStr src).get? 2 = none := by
          rw [List.get?_eq_none] at ht1 ⊢
          omega
        rw [baselineVersion_of_short _ _ ht2] at hbr
        refine ⟨hbc.symm, ?_, ?_, ?_⟩ <;>
          rw [← hbr, ← hbpr] <;>
          simp [baselineMethod_headers, baselineMethod_cookies,
            baselineMethod_bodies, Request.new]

end RustServer

namespace RustServer

theorem registerExplicitList_get (re : RegexEngine)
    (regs : List (String × Callback)) :
    ∀ rm rm1 : RouteMap, registerExplicitList re rm regs = some rm1 →
    rm1.explicit_with_params = rm.explicit_with_params ∧
    rm1.wildcard = rm.wildcard ∧
    ∀ u, assocGet rm1.explicit u =
      match assocGet rm.explicit u with
      | some w => some w
      | none => firstExplicitBinding regs u := by
  induction regs with
  | nil =>
    intro rm rm1 h
    simp only [registerExplicitList] at h
    injection h with h
    subst h
    refine ⟨rfl, rfl, fun u => ?_⟩
    cases hg : assocGet rm.explicit u <;> simp [firstExplicitBinding]
  | cons e rest ih =>
    obtain ⟨p, cb⟩ := e
    intro rm rm1 h
    simp only [registerExplicitList] at h
    cases hins : RouteMap.insert re rm (.Explicit p) cb with
    | none => rw [hins] at h; exact absurd h (by simp)
    | some rmmid =>
      rw [hins] at h
      simp only [] at h
      obtain ⟨h1, h2, h3⟩ := ih rmmid rm1 h
      unfold RouteMap.insert at hins
      simp only [] at hins
      by_cases hp : p = "" ∨ ¬ strStartsWith p "/"
      · rw [if_pos hp] at hins; exact absurd hins (by simp)
      · rw [if_neg hp] at hins
        injection hins with hins
        have hpne : p ≠ "" := fun hh => hp (Or.inl hh)
        subst hins
        refine ⟨h1, h2, fun u => ?_⟩
        rw [h3 u]
        simp only [mapAdd, hpne, if_false, Bool.false_eq_true, ite_false]
        rw [assocGet_assocOrInsert]
        cases hg : assocGet rm.explicit u with
        | some w => simp
        | none =>
          simp only []
          by_cases hl : strToLower p = u
          · simp [firstExplicitBinding, hpne, hl]
          · simp [firstExplicitBinding, hpne, hl]

theorem header_only_handle_request (act : HandlerAction) (callback : Callback)
    (req : Request) (r : Response)
    (hact : ∀ x, (act callback req x).is_header_only = x.is_header_only) :
    (Route.handle_request act callback req r).is_header_only
      = r.is_header_only := by
  simp only [Route.handle_request]
  split
  · simp [Response.header, Response.set_status, Response.is_header_only]
    exact hact r
  · exact hact r

theorem header_only_can_keep_alive (r : Response) (b : Bool) :
    (Response.can_keep_alive r b).is_header_only = r.is_header_only := rfl

theorem header_only_validate (r : Response) :
    (Response.validate_and_update r).is_header_only = r.is_header_only := rfl

end RustServer

namespace RustServer

/-! ## Claim theorems -/

/-- C1 (code bug): `Node::insert` consumes the parsed `Field` list with
`segments.pop()`, building the trie from the LAST segment downwards, while
`recursive_find` consumes URI segments first-to-last.  Registering
`ExplicitWithParams "/a/:b"` (handler 7) therefore fails to resolve the
matching URI "/a/v" — the resolution the claim requires — and instead
resolves the segment-reversed URI "/v/a", binding `b = "v"` there.  The
first conjunct pins the parser's (correct, forward) field order, matching
the repository's own `params_parser_test_one` test. -/
theorem c1_trie_insert_reversed :
    paramsParserFields reW "/a/:b"
      = some [⟨"a", false, none⟩, ⟨"b", true, none⟩]
    ∧ (RouteMap.new.insert reW (.ExplicitWithParams "/a/:b") 7).map
        (fun rm => (rm.seek_path reW "/a/v", rm.seek_path reW "/v/a"))
      = some ((none, []), (some 7, [("b", "v")])) :=
  ⟨by decide, by decide⟩

/-- C2 (counterexample): registering "/a" with handler 1 and then handler 2
and resolving "/a" returns handler 1, not the last-bound handler 2 — the
explicit map stores with `entry(..).or_insert(..)`, so the FIRST binding
wins. -/
theorem c2_counterexample :
    (registerExplicitList reW RouteMap.new [("/a", 1), ("/a", 2)]).map
        (fun rm => (rm.seek_path reW "/a").1) = some (some 1)
    ∧ (some (some 1) : Option (Option Callback)) ≠ some (some 2) :=
  ⟨by decide, by decide⟩

/-- C2 (amended): for every sequence of explicit registrations, resolving a
path P returns the handler of the FIRST registration whose (non-empty) path
lowercases to P; later rebinds of the same path are ignored (`or_insert`),
and registration lowercases the key while resolution looks up the raw
URI. -/
theorem c2_explicit_first_binding (re : RegexEngine)
    (regs : List (String × Callback)) (rm : RouteMap) (uri : String)
    (cb : Callback)
    (hreg : registerExplicitList re RouteMap.new regs = some rm)
    (hfirst : firstExplicitBinding regs uri = some cb) :
    RouteMap.seek_path re rm uri = (some cb, []) := by
  obtain ⟨-, -, h3⟩ := registerExplicitList_get re regs RouteMap.new rm hreg
  have hg : assocGet rm.explicit uri = some cb := by
    rw [h3 uri]
    simp only [RouteMap.new, assocGet]
    exact hfirst
  unfold RouteMap.seek_path
  rw [hg]

/-- Witness for C2 at the registrations [("/a", 1), ("/a", 2)]. -/
theorem c2_explicit_first_binding_witness :
    registerExplicitList reW RouteMap.new [("/a", 1), ("/a", 2)]
      = some { RouteMap.new with explicit := [("/a", 1)] }
    ∧ firstExplicitBinding [("/a", 1), ("/a", 2)] "/a" = some 1
    ∧ RouteMap.seek_path reW { RouteMap.new with explicit := [("/a", 1)] } "/a"
      = (some 1, []) :=
  ⟨rfl, by decide,
    c2_explicit_first_binding reW [("/a", 1), ("/a", 2)]
      { RouteMap.new with explicit := [("/a", 1)] } "/a" 1 rfl (by decide)⟩

/-- C3 (counterexample): with wildcard patterns "a" (handler 1) then "b"
(handler 2) registered in that order, both matching "ab" on a
substring-semantics engine, the wildcard store is a hash map: iterating its
two entries in the reversed (equally valid) order returns handler 2,
not the first-registered matching handler 1 — registration order is not
what `search_wildcard_router` follows; it follows the map's unspecified
iteration order. -/
theorem c3_counterexample :
    rmC3.map (·.wildcard) = some [("a", ⟨"a", 1⟩), ("b", ⟨"b", 2⟩)]
    ∧ List.Perm [("b", (⟨"b", 2⟩ : RegexRoute)), ("a", ⟨"a", 1⟩)]
        [("a", ⟨"a", 1⟩), ("b", ⟨"b", 2⟩)]
    ∧ search_wildcard_router reSub [("a", ⟨"a", 1⟩), ("b", ⟨"b", 2⟩)] "ab"
        = some 1
    ∧ search_wildcard_router reSub [("b", ⟨"b", 2⟩), ("a", ⟨"a", 1⟩)] "ab"
        = some 2
    ∧ (some 2 : Option Callback) ≠ some 1 :=
  ⟨by decide, by decide, by decide, by decide, by decide⟩

/-- C3 (amended): for every registered wildcard entry set and every
iteration order the hash map may present (any permutation of its entries),
the returned handler — when there is one — belongs to some registered
pattern that matches the path, and `none` is returned exactly when no
registered pattern matches; which of several matching handlers wins is
determined by the unspecified iteration order, not by registration order. -/
theorem c3_wildcard_unordered (re : RegexEngine)
    (entries perm : List (String × RegexRoute)) (uri : String)
    (hperm : perm.Perm entries) :
    (∀ cb, search_wildcard_router re perm uri = some cb →
      ∃ p r, (p, r) ∈ entries ∧ re.isMatch r.regex uri = true ∧ r.handler = cb)
    ∧ (search_wildcard_router re perm uri = none →
      ∀ p r, (p, r) ∈ entries → re.isMatch r.regex uri = false) := by
  constructor
  · intro cb hcb
    obtain ⟨p, r, hmem, hm, hh⟩ := search_wildcard_mem re perm uri cb hcb
    exact ⟨p, r, hperm.mem_iff.mp hmem, hm, hh⟩
  · intro hnone p r hmem
    exact search_wildcard_none re perm uri hnone p r (hperm.mem_iff.mpr hmem)

/-- Witness for C3 (amended) at a singleton wildcard table. -/
theorem c3_wildcard_unordered_witness :
    List.Perm [("a", (⟨"a", 1⟩ : RegexRoute))] [("a", ⟨"a", 1⟩)]
    ∧ ((∀ cb, search_wildcard_router reSub [("a", ⟨"a", 1⟩)] "ab" = some cb →
        ∃ p r, (p, r) ∈ [("a", (⟨"a", 1⟩ : RegexRoute))]
          ∧ reSub.isMatch r.regex "ab" = true ∧ r.handler = cb)
      ∧ (search_wildcard_router reSub [("a", ⟨"a", 1⟩)] "ab" = none →
        ∀ p r, (p, r) ∈ [("a", (⟨"a", 1⟩ : RegexRoute))] →
          reSub.isMatch r.regex "ab" = false)) :=
  ⟨List.Perm.refl _,
    c3_wildcard_unordered reSub [("a", ⟨"a", 1⟩)] [("a", ⟨"a", 1⟩)] "ab"
      (List.Perm.refl _)⟩

/-- C4 (counterexample): in the trie holding the field lists [b, :x]
(handler 1) and [:y] (handler 2) — so the root's parameter children are
`:x` (a handler-less branch) and `:y` (a leaf) — resolving the single
segment "v" matches `:x` at the final segment, pushes the binding
("x", "v"), and returns the branch's absent handler immediately: the search
reports no handler yet leaves the stale binding in the collection (and
never tries the sibling `:y`). -/
theorem c4_counterexample :
    tC4.map (fun t => RouteTrie.find reW t ["v"] []) = some (none, [("x", "v")])
    ∧ ([("x", "v")] : List (String × String)) ≠ [] :=
  ⟨by decide, by decide⟩

/-- C4 (amended): what the parameter stack actually guarantees is only that
bindings present when a (sub)search starts are never removed — after a
failed deeper exploration, `recursive_find` pops exactly one binding, the
most recently accumulated one (first conjunct, general over all tries).
That pop restores the stack only when the failed deeper branch itself
leaked nothing: with handler-carrying leaves, a deep failure pops its own
binding and a later sibling match sees no stale state (second and third
conjuncts, on the trie of [c,:x] handler 1 and [b,:y] handler 2); but a
parameter child matched at the FINAL segment returns its — possibly
absent — handler without popping, so a handler-less node there leaves a
stale binding on a failed search (fourth conjunct, trie of [b,:x] and
[:y]); and when such a node sits deeper, the parent pops the leaked binding
instead of its own, so a stale binding from a rejected branch survives both
into a failed search (fifth conjunct: routes "/a/:q/:p" and "/w/:s" at
segments ["u","v"] yield no handler yet keep ("p","u")) and into a later
SUCCESSFUL sibling match, where `seek_path` copies it into the resolved
parameter map (sixth conjunct: "/u/w" resolves to handler 2 with the stale
("p","u") alongside ("s","u")). -/
theorem c4_param_stack_actual :
    (∀ (re : RegexEngine) (segs : List String) (node : Node)
        (params : List (String × String)),
      ∃ extra, (recursive_find re node segs params).2 = params ++ extra)
    ∧ tC4deep.map (fun t => RouteTrie.find reW t ["v", "b"] [])
      = some (some 2, [("y", "v")])
    ∧ tC4deep.map (fun t => RouteTrie.find reW t ["v", "z"] [])
      = some (none, [])
    ∧ tC4.map (fun t => RouteTrie.find reW t ["v"] [])
      = some (none, [("x", "v")])
    ∧ rmC4.map (fun rm => RouteTrie.find reW rm.explicit_with_params ["u", "v"] [])
      = some (none, [("p", "u")])
    ∧ rmC4.map (fun rm => rm.seek_path reW "/u/w")
      = some (some 2, [("p", "u"), ("s", "u")]) :=
  ⟨fun re segs node params => recursive_find_prefix re segs node params,
   by decide, by decide, by decide, by decide, by decide⟩

/-- C5 (counterexample): `split_path` maps "/a/b/?x=1#frag" to the URI
"/a/b/" — the trailing slash is NOT stripped on the query path — and to the
scheme "?x=1", which keeps the leading "?"; the claim's expected value
("/a/b", "x=1", "#frag") is therefore not what the code produces. -/
theorem c5_counterexample :
    split_path "/a/b/?x=1#frag" = some ("/a/b/", "?x=1", "#frag")
    ∧ (some ("/a/b/", "?x=1", "#frag") : Option (String × String × String))
      ≠ some ("/a/b", "x=1", "#frag") :=
  ⟨by decide, by decide⟩

/-- C5 (amended): the actual mapping — "/a/b/?x=1#frag" yields URI "/a/b/"
(trailing slash kept when a query is present), scheme "?x=1" (leading "?"
kept), fragment "#frag"; "/" yields ("/", "", ""); a trailing slash is
stripped only on the no-query path ("/a/b/" to "/a/b"); and the fragment is
split at the FIRST "#" of the last "/"-delimited component while, with no
query, the URI keeps the fragment text ("/x#a#b" yields URI "/x#a#b" with
fragment "#a#b"). -/
theorem c5_split_path_actual :
    split_path "/a/b/?x=1#frag" = some ("/a/b/", "?x=1", "#frag")
    ∧ split_path "/" = some ("/", "", "")
    ∧ split_path "/a/b/" = some ("/a/b", "", "")
    ∧ split_path "/x#a#b" = some ("/x#a#b", "", "#a#b") :=
  ⟨by decide, by decide, by decide, by decide⟩

end RustServer

namespace RustServer

/-- C6 (counterexample): the malformed request buffer "XYZ" (a request line
with no target and no version, resolving no handler) is answered with
status 404 — a `ServiceUnavailable` outcome — not with the claimed 400,
which is reserved for the CR/LF-only `EmptyRequest` case. -/
theorem c6_counterexample :
    handle_connection reW Route.new orcW none (some "XYZ")
      = some (.respondedErr 404)
    ∧ (some (ConnOutcome.respondedErr 404) : Option ConnOutcome)
      ≠ some (.respondedErr 400) :=
  ⟨by decide, by decide⟩

/-- C6 (amended): the deterministic outcome mapping of
`handle_connection` — a failed stream read closes the socket with no
response bytes; a CR/LF-only buffer yields 400; a denied authorization
predicate yields 401; a request resolving no handler (malformed request
lines included) yields 404. -/
theorem c6_error_outcomes (re : RegexEngine) (route : Route) (orc : RecvOracle)
    (auth : Option AuthFunc) :
    (handle_connection re route orc auth none = some .closedNoBytes)
    ∧ (∀ raw, trimCrLf raw = "" →
        handle_connection re route orc auth (some raw)
          = some (.respondedErr 400))
    ∧ (∀ raw af, auth = some af → trimCrLf raw ≠ "" →
        (∀ q u, af q u = false) →
        (deserialize re route orc raw Request.new).isSome = true →
        handle_connection re route orc auth (some raw)
          = some (.respondedErr 401))
    ∧ (∀ raw, auth = none → trimCrLf raw ≠ "" →
        (deserialize re route orc raw Request.new).map Prod.fst = some none →
        handle_connection re route orc auth (some raw)
          = some (.respondedErr 404)) := by
  refine ⟨rfl, ?_, ?_, ?_⟩
  · intro raw h
    simp [handle_connection, parse_request, h]
  · intro raw af hauth h haf hsome
    subst hauth
    rw [Option.isSome_iff_exists] at hsome
    obtain ⟨⟨cbv, req1⟩, hdes⟩ := hsome
    simp [handle_connection, parse_request, h, hdes, haf]
  · intro raw hauth h hmap
    subst hauth
    cases hdes : deserialize re route orc raw Request.new with
    | none => rw [hdes] at hmap; exact absurd hmap (by simp)
    | some pr =>
      obtain ⟨cbv, req1⟩ := pr
      rw [hdes] at hmap
      simp at hmap
      subst hmap
      simp [handle_connection, parse_request, h, hdes]

/-- Witness for C6 at concrete buffers: the CR/LF-only buffer (400), a
request with no matching handler (404), and a denied authorization (401). -/
theorem c6_error_outcomes_witness :
    (trimCrLf "\r\n" = "")
    ∧ handle_connection reW Route.new orcW none (some "\r\n")
        = some (.respondedErr 400)
    ∧ (trimCrLf "GET /x HTTP/1.1" ≠ "")
    ∧ ((deserialize reW Route.new orcW "GET /x HTTP/1.1" Request.new).map
        Prod.fst = some none)
    ∧ handle_connection reW Route.new orcW none (some "GET /x HTTP/1.1")
        = some (.respondedErr 404)
    ∧ (deserialize reW Route.new orcW "GET /x HTTP/1.1" Request.new).isSome
        = true
    ∧ handle_connection reW Route.new orcW (some (fun _ _ => false))
        (some "GET /x HTTP/1.1") = some (.respondedErr 401) :=
  ⟨by decide,
   (c6_error_outcomes reW Route.new orcW none).2.1 "\r\n" (by decide),
   by decide, by decide,
   (c6_error_outcomes reW Route.new orcW none).2.2.2 "GET /x HTTP/1.1" rfl
     (by decide) (by decide),
   by decide,
   (c6_error_outcomes reW Route.new orcW (some (fun _ _ => false))).2.2.1
     "GET /x HTTP/1.1" (fun _ _ => false) rfl (by decide) (fun _ _ => rfl)
     (by decide)⟩

/-- C7 (confirmed): when the requested method has no route table,
`seek_handler` searches the GET table only for a header-only request and
returns its hit without consulting the catch-all table (first conjunct);
for a non-header-only request it goes straight to the `"*"` catch-all
table, whose `seek_path` result it returns (second conjunct), and with no
catch-all table the resolution yields no handler (third conjunct). -/
theorem c7_seek_handler_fallback (re : RegexEngine) (route : Route)
    (m : REST) (uri : String)
    (hm : assocGet route.store m = none) :
    (∀ rm cb ps, assocGet route.store REST.GET = some rm →
        RouteMap.seek_path re rm uri = (some cb, ps) →
        Route.seek_handler re route m uri true = (some cb, ps))
    ∧ (∀ am, assocGet route.store ROUTE_ALL = some am →
        Route.seek_handler re route m uri false = RouteMap.seek_path re am uri)
    ∧ (assocGet route.store ROUTE_ALL = none →
        Route.seek_handler re route m uri false = (none, [])) := by
  refine ⟨?_, ?_, ?_⟩
  · intro rm cb ps hget hpath
    simp [Route.seek_handler, hm, hget, hpath]
  · intro am hall
    simp only [Route.seek_handler, hm]
    rw [hall]
    cases hf : RouteMap.seek_path re am uri with
    | mk a b => simp [hf]
  · intro hall
    simp [Route.seek_handler, hm, hall]

/-- Witness for C7: method POST is unregistered, the GET table resolves
"/a" to handler 5, and a header-only POST resolution returns it. -/
theorem c7_seek_handler_fallback_witness :
    assocGet routeG.store REST.POST = none
    ∧ assocGet routeG.store REST.GET = some rmGet5
    ∧ RouteMap.seek_path reW rmGet5 "/a" = (some 5, [])
    ∧ Route.seek_handler reW routeG REST.POST "/a" true = (some 5, []) :=
  ⟨rfl, rfl, by decide,
   (c7_seek_handler_fallback reW routeG .POST "/a" rfl).1 rmGet5 5 [] rfl
     (by decide)⟩

/-- C10 (confirmed): every response built by `build_err_response` — for any
status, the 400/401/404 request-level failures included — has its
keep-alive flag disabled, and writing it never enters the keep-alive
streaming loop and always shuts the socket down in both directions. -/
theorem c10_err_response_closes (s : Nat) (io : IOOracle) :
    (build_err_response s).to_keep_alive = false
    ∧ (write_to_stream io (build_err_response s)).1.enteredKeepAliveLoop = false
    ∧ (write_to_stream io (build_err_response s)).1.shutdown = true :=
  ⟨rfl, rfl, rfl⟩

end RustServer

namespace RustServer

theorem header_only_connectionKeepAlive (req : Request) (r : Response) :
    (connectionKeepAlive req r).is_header_only = r.is_header_only := by
  unfold connectionKeepAlive
  cases req.header "connection" with
  | none => rfl
  | some v =>
    by_cases hv : v = "close" <;>
      simp [hv, Response.can_keep_alive, Response.is_header_only]

/-- C8 (counterexample): a request whose method token uppercases to the
literal `HEADER` (with no `connection: close` header) is NOT answered in
header-only mode — the response's header-only flag stays off and body bytes
are serialized (here through the keep-alive chunked writer); only the
literal `HEAD` is special-cased in `handle_response`. -/
theorem c8_counterexample :
    (handle_response noopAct ioT 0 reqHeaderTok Response.new).1.is_header_only
      = false
    ∧ (handle_response noopAct ioT 0 reqHeaderTok Response.new).2.1.wroteBody
      = true :=
  ⟨by decide, by decide⟩

/-- C8 (amended): a method equal to `REST::OTHER("HEAD")` forces header-only
response mode — for any handler that does not itself toggle the flag, the
final response is header-only, body serialization is suppressed and headers
are still written; a method of `REST::OTHER("HEADER")` leaves the response's
header-only flag untouched.  The literal `HEADER` token instead affects
ROUTING only: it makes `deserialize_baseline` pass `header_only = true` to
`seek_handler`, enabling the GET-table fallback (third conjunct), which a
non-`HEADER` unknown token does not get (fourth conjunct). -/
theorem c8_head_not_header :
    (∀ act io cb req resp,
      (∀ x, (act cb req x).is_header_only = x.is_header_only) →
      req.method = REST.OTHER "HEAD" →
      ((handle_response act io cb req resp).1.is_header_only = true
        ∧ (handle_response act io cb req resp).2.1.wroteBody = false
        ∧ (handle_response act io cb req resp).2.1.wroteHeader = true))
    ∧ (∀ act io cb req resp,
      (∀ x, (act cb req x).is_header_only = x.is_header_only) →
      req.method = REST.OTHER "HEADER" →
      (handle_response act io cb req resp).1.is_header_only
        = resp.is_header_only)
    ∧ (deserialize_baseline reW routeG "HEADER /a HTTP/1.1" Request.new).map
        (fun p => p.2.map Prod.fst) = some (some (some 5))
    ∧ (deserialize_baseline reW routeG "XKCD /a HTTP/1.1" Request.new).map
        (fun p => p.2.map Prod.fst) = some (some none) := by
  refine ⟨?_, ?_, by decide, by decide⟩
  · intro act io cb req resp hact hm
    simp only [handle_response, hm]
    have h4 : ((Route.handle_request act cb req
        ((connectionKeepAlive req resp).header_only true)).validate_and_update).is_header_only
        = true := by
      rw [header_only_validate, header_only_handle_request act cb req _ hact]
      rfl
    refine ⟨by simpa using h4, ?_, ?_⟩ <;> simp [write_to_stream, h4]
  · intro act io cb req resp hact hm
    simp only [handle_response, hm]
    rw [if_neg (by decide : ¬ (REST.OTHER "HEADER" = REST.OTHER "HEAD"))]
    rw [header_only_validate, header_only_handle_request act cb req _ hact,
      header_only_connectionKeepAlive]

/-- Witness for C8 (amended) at the no-op handler and a HEAD request. -/
theorem c8_head_not_header_witness :
    (∀ x, (noopAct 0 reqHeadTok x).is_header_only = x.is_header_only)
    ∧ reqHeadTok.method = REST.OTHER "HEAD"
    ∧ ((handle_response noopAct ioT 0 reqHeadTok Response.new).1.is_header_only
        = true
      ∧ (handle_response noopAct ioT 0 reqHeadTok Response.new).2.1.wroteBody
        = false
      ∧ (handle_response noopAct ioT 0 reqHeadTok Response.new).2.1.wroteHeader
        = true) :=
  ⟨fun _ => rfl, rfl,
    c8_head_not_header.1 noopAct ioT 0 reqHeadTok Response.new (fun _ => rfl)
      rfl⟩

theorem deserialize_with_no_uri (re : RegexEngine) (route : Route)
    (orc : RecvOracle) (baseline : String) (remv : Option String)
    (res : Option Callback) (req1 : Request)
    (hd : deserialize_with re route orc baseline remv Request.new
      = some (res, req1))
    (huri : req1.uri = "") :
    req1.headers = [] ∧ req1.cookies = [] ∧ req1.bodies = [] ∧ res = none := by
  simp only [deserialize_with] at hd
  cases hb : deserialize_baseline re route baseline Request.new with
  | none => rw [hb] at hd; exact absurd hd (by simp)
  | some pr =>
    obtain ⟨rq, chanv⟩ := pr
    rw [hb] at hd
    simp only [] at hd
    cases chanv with
    | none =>
      simp only [] at hd
      injection hd with h1
      injection h1 with hres hreq
      have hall := baseline_new_no_uri re route baseline rq none hb
        (by rw [hreq]; exact huri)
      exact ⟨by rw [← hreq]; exact hall.2.1,
             by rw [← hreq]; exact hall.2.2.1,
             by rw [← hreq]; exact hall.2.2.2,
             hres.symm⟩
    | some route_info =>
      simp only [] at hd
      split at hd <;> (try split at hd) <;>
        (injection hd with h1;
         injection h1 with hres hreq;
         rw [← hreq] at huri;
         exact absurd
           (baseline_new_no_uri re route baseline rq (some route_info) hb
             (by simpa [uri_applyRemainder, uri_create_param] using huri)).1
           (by simp))

/-- C9 (confirmed): for every raw buffer whose request line yields an empty
normalized URI (so no route-lookup channel is created), `deserialize`
leaves the fresh Request's header map, cookie map and body list at their
initial empty values — even when the buffer carries well-formed header,
cookie and body lines — and returns no handler: the remainder results are
consumed only inside the `if let Some(rx) = baseline_chan` block. -/
theorem c9_empty_uri_frame (re : RegexEngine) (route : Route)
    (orc : RecvOracle) (raw : String) (res : Option Callback) (req1 : Request)
    (hdes : deserialize re route orc raw Request.new = some (res, req1))
    (huri : req1.uri = "") :
    req1.headers = [] ∧ req1.cookies = [] ∧ req1.bodies = [] ∧ res = none := by
  simp only [deserialize] at hdes
  by_cases hraw : raw = ""
  · rw [if_pos hraw] at hdes
    injection hdes with h1
    injection h1 with hres hreq
    refine ⟨?_, ?_, ?_, hres.symm⟩ <;> rw [← hreq] <;> rfl
  · rw [if_neg hraw] at hdes
    cases hsp : splitFirstSub ['\r', '\n'] (rustTrim raw).toList with
    | some br =>
      obtain ⟨b, r⟩ := br
      rw [hsp] at hdes
      simp only [] at hdes
      exact deserialize_with_no_uri re route orc (String.mk b)
        (some (String.mk r)) res req1 hdes huri
    | none =>
      rw [hsp] at hdes
      exact deserialize_with_no_uri re route orc (rustTrim raw) none res req1
        hdes huri

/-- Witness for C9 at the buffer "GET\r\nHost: h\r\n\r\nbody": a request
line with a single token, followed by well-formed header and body lines. -/
theorem c9_empty_uri_frame_witness :
    deserialize reW Route.new orcW "GET\r\nHost: h\r\n\r\nbody" Request.new
      = some (none, { Request.new with method := .GET })
    ∧ ({ Request.new with method := .GET } : Request).uri = ""
    ∧ (({ Request.new with method := .GET } : Request).headers = []
      ∧ ({ Request.new with method := .GET } : Request).cookies = []
      ∧ ({ Request.new with method := .GET } : Request).bodies = []
      ∧ (none : Option Callback) = none) :=
  ⟨by decide, by decide,
    c9_empty_uri_frame reW Route.new orcW "GET\r\nHost: h\r\n\r\nbody" none
      { Request.new with method := .GET } (by decide) (by decide)⟩

end RustServer
